import Mathlib

/-!
Verification of the churn-analytics core of the lapsed-member-data repository.

The development shallowly embeds the repository's data-normalization and
aggregation core: the CSV schema normalizer (`normalizeRow`), the tolerant
date utilities (`parseDate`, `getMonthYear`), the member classifiers
(`isNewMember`, `isFrozenMember`, `isHighRiskMember`), the analytics
aggregator (`calculateAnalytics`), and the filter engine
(`filterByDateRange`, `filteredData`).

JavaScript numbers are modelled with `Nat`/`Int`/`ℚ` (the rates and revenue
sums live in `ℚ`, which has no NaN; the division guards of the source are
kept verbatim).  JavaScript objects used as string-keyed dictionaries are
modelled as association lists with first-occurrence lookup and
overwrite-or-append assignment, which matches object-key semantics for the
programs at hand.  The host primitives `new Date`, `parseFloat` and
`parseInt` are not repository code; they are modelled by executable
functions (`jsNewDate`, `jsParseFloat`, `jsParseInt`) that are faithful to
ECMAScript behaviour on the shapes of input this dataset and its
specification exercise (ISO `YYYY-MM-DD` dates with an optional time of
day, plain decimal numerals); anything outside that shape is an unparseable
value, exactly as a garbage string is for the host parsers.
-/

namespace ChurnCore

/-! ### JavaScript-object model: association lists -/

/-- First-occurrence lookup, the semantics of reading `m[key]` on a JS object. -/
def aget {β : Type} : List (String × β) → String → Option β
  | [], _ => none
  | (k, v) :: rest, key => if k = key then some v else aget rest key

/-- Overwrite-or-append assignment, the semantics of `m[key] = v` on a JS object. -/
def objSet {β : Type} : List (String × β) → String → β → List (String × β)
  | [], key, v => [(key, v)]
  | (k, w) :: rest, key, v =>
    if k = key then (k, v) :: rest else (k, w) :: objSet rest key v

/-- `m[key] = f(m[key] ?? dflt)`: the init-if-absent-then-mutate idiom the
aggregator uses on its bucket dictionaries. -/
def updAList {β : Type} (dflt : β) (f : β → β) : List (String × β) → String → List (String × β)
  | [], key => [(key, f dflt)]
  | (k, v) :: rest, key =>
    if k = key then (k, f v) :: rest else (k, v) :: updAList dflt f rest key

/-! ### Models of the host string primitives -/

/-- Whitespace as trimmed by the host `trim` (the characters occurring in this
data: space, tab, newline, carriage return). -/
def isWsChar (c : Char) : Bool := c = ' ' || c = '\t' || c = '\n' || c = '\r'

def dropLeadingWs : List Char → List Char
  | [] => []
  | c :: rest => if isWsChar c then dropLeadingWs rest else c :: rest

/-- `String.prototype.trim`. -/
def strTrim (s : String) : String :=
  ⟨(dropLeadingWs (dropLeadingWs s.data.reverse).reverse)⟩

/-- ASCII lowercasing of one character, the host `toLowerCase` on the ASCII
headers and queries this program handles. -/
def lowerChar (c : Char) : Char :=
  if 'A' ≤ c ∧ c ≤ 'Z' then Char.ofNat (c.toNat + 32) else c

/-- `String.prototype.toLowerCase`. -/
def strToLower (s : String) : String := ⟨s.data.map lowerChar⟩

/-! ### Models of the host numeric parsers -/

def digitVal (c : Char) : Option Nat :=
  if c.isDigit then some (c.toNat - 48) else none

/-- Longest leading run of decimal digits, returned with the rest of the input. -/
def takeDigits : List Char → (List Nat × List Char)
  | [] => ([], [])
  | c :: rest =>
    match digitVal c with
    | some d =>
      let p := takeDigits rest
      (d :: p.1, p.2)
    | none => ([], c :: rest)

def natOfDigits (ds : List Nat) : Nat := ds.foldl (fun a d => a * 10 + d) 0

def fracOfDigits (ds : List Nat) : ℚ := ds.foldr (fun d a => ((d : ℚ) + a) / 10) 0

/-- Model of the host `parseFloat`: skip surrounding whitespace, optional sign,
longest decimal numeral prefix (integer part, optional fraction), ignoring any
trailing junk; no numeral at all is NaN, modelled as `none`.  (Exponent and
`Infinity` forms are outside the shapes this dataset exercises and are modelled
as unparseable.) -/
def jsParseFloat (s : String) : Option ℚ :=
  let l := (strTrim s).data
  let p : ℚ × List Char :=
    match l with
    | '-' :: r => (-1, r)
    | '+' :: r => (1, r)
    | _ => (1, l)
  let ip := takeDigits p.2
  match ip.2 with
  | '.' :: r2 =>
    let fp := takeDigits r2
    if ip.1 = [] ∧ fp.1 = [] then none
    else some (p.1 * ((natOfDigits ip.1 : ℚ) + fracOfDigits fp.1))
  | _ => if ip.1 = [] then none else some (p.1 * (natOfDigits ip.1 : ℚ))

/-- Model of the host `parseInt` with no radix argument: skip whitespace,
optional sign, longest leading decimal-digit run, ignoring trailing junk; no
digits is NaN, modelled as `none`.  (The hexadecimal `0x` form is outside the
shapes this dataset exercises.) -/
def jsParseInt (s : String) : Option Int :=
  let l := (strTrim s).data
  let p : Int × List Char :=
    match l with
    | '-' :: r => (-1, r)
    | '+' :: r => (1, r)
    | _ => (1, l)
  let ip := takeDigits p.2
  if ip.1 = [] then none else some (p.1 * (natOfDigits ip.1 : Int))

/-- `parseFloat(x) || 0`: NaN collapses to 0 (and a parsed 0 stays 0). -/
def parseFloatD (s : String) : ℚ := (jsParseFloat s).getD 0

/-- `parseInt(x) || 0`. -/
def parseIntD (s : String) : Int := (jsParseInt s).getD 0

/-! ### Model of the host Date -/

/-- A parsed calendar date with time of day.  Time zones are outside the model:
all dates are taken in one fixed zone, so date comparison is comparison of the
civil timestamp. -/
structure JSDate where
  year : Int
  month : Nat
  day : Nat
  hour : Nat
  minute : Nat
  second : Nat
deriving DecidableEq

def isLeap (y : Int) : Bool := y % 4 = 0 && (y % 100 ≠ 0 || y % 400 = 0)

def daysInMonth (y : Int) : Nat → Nat
  | 1 => 31
  | 2 => if isLeap y then 29 else 28
  | 3 => 31
  | 4 => 30
  | 5 => 31
  | 6 => 30
  | 7 => 31
  | 8 => 31
  | 9 => 30
  | 10 => 31
  | 11 => 30
  | 12 => 31
  | _ => 0

def mkJSDate (y mo d h mi s : Nat) : Option JSDate :=
  if 1 ≤ mo ∧ mo ≤ 12 ∧ 1 ≤ d ∧ d ≤ daysInMonth (y : Int) mo ∧ h ≤ 23 ∧ mi ≤ 59 ∧ s ≤ 59
  then some ⟨(y : Int), mo, d, h, mi, s⟩ else none

def d2 (a b : Char) : Option Nat :=
  match digitVal a, digitVal b with
  | some x, some y => some (10 * x + y)
  | _, _ => none

def d4 (a b c d : Char) : Option Nat :=
  match digitVal a, digitVal b, digitVal c, digitVal d with
  | some w, some x, some y, some z => some (1000 * w + 100 * x + 10 * y + z)
  | _, _, _, _ => none

/-- Model of `new Date(string)` on the date shapes this program feeds it:
`YYYY-MM-DD` with an optional `" HH:MM:SS"` or `"THH:MM:SS"` tail, with
calendar validation.  Every other string is an Invalid Date, modelled as
`none`. -/
def jsNewDate (s : String) : Option JSDate :=
  match s.data with
  | [y1, y2, y3, y4, '-', m1, m2, '-', a1, a2] =>
    match d4 y1 y2 y3 y4, d2 m1 m2, d2 a1 a2 with
    | some y, some mo, some d => mkJSDate y mo d 0 0 0
    | _, _, _ => none
  | [y1, y2, y3, y4, '-', m1, m2, '-', a1, a2, sep, h1, h2, ':', i1, i2, ':', s1, s2] =>
    if sep = ' ' ∨ sep = 'T' then
      match d4 y1 y2 y3 y4, d2 m1 m2, d2 a1 a2, d2 h1 h2, d2 i1 i2, d2 s1 s2 with
      | some y, some mo, some d, some h, some mi, some ss => mkJSDate y mo d h mi ss
      | _, _, _, _, _, _ => none
    else none
  | _ => none

/-- Days since 1970-01-01 of a civil date (proleptic Gregorian). -/
def daysFromCivil (y : Int) (m d : Nat) : Int :=
  let yAdj : Int := if m ≤ 2 then y - 1 else y
  let era : Int := Int.fdiv yAdj 400
  let yoe : Int := yAdj - era * 400
  let mp : Int := if m > 2 then (m : Int) - 3 else (m : Int) + 9
  let doy : Int := (153 * mp + 2) / 5 + (d : Int) - 1
  let doe : Int := yoe * 365 + yoe / 4 - yoe / 100 + doy
  era * 146097 + doe - 719468

/-- Model of `Date.prototype.getTime`: milliseconds since the epoch (one fixed
time zone, see `JSDate`). -/
def getTime (dt : JSDate) : Int :=
  daysFromCivil dt.year dt.month dt.day * 86400000
    + (dt.hour : Int) * 3600000 + (dt.minute : Int) * 60000 + (dt.second : Int) * 1000

/-- Model of `<` on JS dates: timestamp comparison. -/
def jsLt (a b : JSDate) : Bool := getTime a < getTime b

/-! ### Date utilities of the repository (csvParser) -/

/-- `String.prototype.replace(",", "")`: removes only the first comma. -/
def removeFirstComma : List Char → List Char
  | [] => []
  | c :: rest => if c = ',' then rest else c :: removeFirstComma rest

def replaceFirstComma (s : String) : String := ⟨removeFirstComma s.data⟩

/-- `parseDate` of the source: empty/whitespace-only input is `none`; otherwise
strip one comma, trim, and hand to the host date parser; an invalid date is
`none`. -/
def parseDate (dateStr : String) : Option JSDate :=
  if dateStr = "" ∨ strTrim dateStr = "" then none
  else jsNewDate (strTrim (replaceFirstComma dateStr))

def monthAbbrev : Nat → String
  | 1 => "Jan"
  | 2 => "Feb"
  | 3 => "Mar"
  | 4 => "Apr"
  | 5 => "May"
  | 6 => "Jun"
  | 7 => "Jul"
  | 8 => "Aug"
  | 9 => "Sep"
  | 10 => "Oct"
  | 11 => "Nov"
  | 12 => "Dec"
  | _ => ""

def natDigitChar (n : Nat) : Char := Char.ofNat (48 + n % 10)

/-- Four-digit year rendering; every date produced by `jsNewDate` has a
four-digit year, on which this agrees with the host's `year: "numeric"`. -/
def yearStr (y : Int) : String :=
  let n := y.toNat
  String.mk [natDigitChar (n / 1000), natDigitChar (n / 100), natDigitChar (n / 10), natDigitChar n]

/-- `getMonthYear` of the source: the "MMM YYYY" month key of a parseable date
string, and the literal "Unknown" otherwise. -/
def getMonthYear (dateStr : String) : String :=
  match parseDate dateStr with
  | none => "Unknown"
  | some d => monthAbbrev d.month ++ " " ++ yearStr d.year

/-! ### The canonical member record (the fields the analytics core reads) -/

/-- The canonical fields of `MemberData` that the classifiers, the aggregator
and the filter engine read.  Every field is a raw string, as in the source. -/
structure MemberData where
  MemberName : String := ""
  MemberID : String := ""
  Status : String := ""
  MembershipName : String := ""
  PurchaseDate : String := ""
  StartDate : String := ""
  ChurnedDate : String := ""
  AmountPaid : String := ""
  TotalSessionsCompleted : String := ""
  MembershipFreezeCount : String := ""
  DaysFrozen : String := ""
  AttendanceRate : String := ""
  CancellationRate : String := ""
  DaysSinceLastVisit : String := ""
  NoShows : String := ""
  PrimaryLocation : String := ""
deriving DecidableEq

/-! ### Member classifiers (analytics.ts) -/

/-- `isNewMember`: the purchase is at most 30 days before `now` (the wall
clock, passed explicitly; `now` is epoch milliseconds).  Unparseable purchase
date is never "new". -/
def isNewMember (now : Int) (member : MemberData) : Bool :=
  match parseDate member.PurchaseDate with
  | none => false
  | some purchaseDate =>
    let daysSincePurchase := Int.fdiv (now - getTime purchaseDate) 86400000
    daysSincePurchase ≤ 30

/-- `isFrozenMember`: freeze count > 0 or days frozen > 0, parse failures as 0. -/
def isFrozenMember (member : MemberData) : Bool :=
  let freezeCount := parseIntD member.MembershipFreezeCount
  let daysFrozen := parseIntD member.DaysFrozen
  freezeCount > 0 || daysFrozen > 0

/-- Risk factor: attendance rate < 40 (parse failure counts as 0, hence low). -/
def lowAttendance (member : MemberData) : Bool :=
  parseFloatD member.AttendanceRate < 40

/-- Risk factor: cancellation rate > 40. -/
def highCancellation (member : MemberData) : Bool :=
  parseFloatD member.CancellationRate > 40

/-- Risk factor: days since last visit > 21. -/
def longAbsence (member : MemberData) : Bool :=
  parseIntD member.DaysSinceLastVisit > 21

/-- Risk factor: no-shows ≥ 3. -/
def frequentNoShows (member : MemberData) : Bool :=
  parseIntD member.NoShows ≥ 3

/-- `isHighRiskMember`: only records whose Status is exactly "Active" can be
high-risk; they are high-risk when at least 2 of the 4 risk factors hold. -/
def isHighRiskMember (member : MemberData) : Bool :=
  if member.Status ≠ "Active" then false
  else
    let riskFactors :=
      ([lowAttendance member, highCancellation member, longAbsence member,
        frequentNoShows member].filter (fun b => b)).length
    riskFactors ≥ 2

/-! ### Analytics aggregator (analytics.ts, calculateAnalytics) -/

structure LocationStats where
  active : Nat := 0
  lapsed : Nat := 0
  new : Nat := 0
  frozen : Nat := 0
deriving DecidableEq

structure MonthLocationData where
  new : Nat := 0
  active : Nat := 0
  lapsed : Nat := 0
  frozen : Nat := 0
  churnRate : ℚ := 0
  revenue : ℚ := 0
deriving DecidableEq

structure ChurnAnalytics where
  totalMembers : Nat
  activeMembers : Nat
  lapsedMembers : Nat
  newMembers : Nat
  highRiskMembers : Nat
  frozenMembers : Nat
  churnRate : ℚ
  totalRevenue : ℚ
  avgSessionsPerMember : ℚ
  avgRevenuePerSession : ℚ
  locationBreakdown : List (String × LocationStats)
  monthlyChurn : List (String × Nat)
  locationMonthlyData : List (String × List (String × MonthLocationData))
deriving DecidableEq

/-- `m["Primary Location"] || "Unknown"`. -/
def locationOf (m : MemberData) : String :=
  if m.PrimaryLocation = "" then "Unknown" else m.PrimaryLocation

/-- The per-record mutation the location-breakdown pass applies to the
record's location bucket. -/
def locStepFun (now : Int) (m : MemberData) (s : LocationStats) : LocationStats :=
  let s1 :=
    if m.Status = "Active" then { s with active := s.active + 1 }
    else if m.Status = "Lapsed" then { s with lapsed := s.lapsed + 1 }
    else s
  let s2 := if isNewMember now m then { s1 with new := s1.new + 1 } else s1
  if isFrozenMember m then { s2 with frozen := s2.frozen + 1 } else s2

def locationStep (now : Int) (acc : List (String × LocationStats)) (m : MemberData) :
    List (String × LocationStats) :=
  updAList ⟨0, 0, 0, 0⟩ (locStepFun now m) acc (locationOf m)

def locationBreakdownOf (now : Int) (data : List MemberData) : List (String × LocationStats) :=
  data.foldl (locationStep now) []

def monthlyChurnOf (data : List MemberData) : List (String × Nat) :=
  (data.filter (fun m => m.Status == "Lapsed" && m.ChurnedDate != "")).foldl
    (fun acc m => updAList 0 (· + 1) acc (getMonthYear m.ChurnedDate)) []

def emptyCell : MonthLocationData := ⟨0, 0, 0, 0, 0, 0⟩

/-- `locationMonthlyData[location][monthKey]` init-if-absent then mutate. -/
def updCell (mat : List (String × List (String × MonthLocationData)))
    (location monthKey : String) (f : MonthLocationData → MonthLocationData) :
    List (String × List (String × MonthLocationData)) :=
  updAList [] (fun row => updAList emptyCell f row monthKey) mat location

/-- One record's contribution to the location×month matrix: ensure the
location row exists; if Start Date is a non-empty string, update the cell of
`getMonthYear(startDate)`; independently, if the record is Lapsed with a
non-empty Churned Date string, update the cell of
`getMonthYear(churnedDate)`. -/
def matrixStep (now : Int) (mat : List (String × List (String × MonthLocationData)))
    (m : MemberData) : List (String × List (String × MonthLocationData)) :=
  let location := locationOf m
  let mat1 := updAList [] id mat location
  let revenue := parseFloatD m.AmountPaid
  let frozen : Nat := if isFrozenMember m then 1 else 0
  let mat2 :=
    if m.StartDate ≠ "" then
      let startMonth := getMonthYear m.StartDate
      updCell mat1 location startMonth (fun c =>
        let c1 := if isNewMember now m then { c with new := c.new + 1 } else c
        let c2 :=
          if m.Status = "Active" then
            { c1 with active := c1.active + 1, revenue := c1.revenue + revenue }
          else c1
        { c2 with frozen := c2.frozen + frozen })
    else mat1
  if m.Status = "Lapsed" ∧ m.ChurnedDate ≠ "" then
    updCell mat2 location (getMonthYear m.ChurnedDate) (fun c =>
      { c with lapsed := c.lapsed + 1, revenue := c.revenue + revenue })
  else mat2

/-- The final pass over one cell: churn rate = lapsed/(active+lapsed)×100,
or 0 on a zero denominator. -/
def setCellChurnRate (c : MonthLocationData) : MonthLocationData :=
  let total := c.active + c.lapsed
  if total > 0 then { c with churnRate := ((c.lapsed : ℚ) / (total : ℚ)) * 100 }
  else { c with churnRate := 0 }

def finalizeMatrix (mat : List (String × List (String × MonthLocationData))) :
    List (String × List (String × MonthLocationData)) :=
  mat.map (fun lr => (lr.1, lr.2.map (fun mc => (mc.1, setCellChurnRate mc.2))))

def locationMonthlyDataOf (now : Int) (data : List MemberData) :
    List (String × List (String × MonthLocationData)) :=
  finalizeMatrix (data.foldl (matrixStep now) [])

/-- Read one cell of the location×month matrix. -/
def cellGet (mat : List (String × List (String × MonthLocationData)))
    (location monthKey : String) : Option MonthLocationData :=
  match aget mat location with
  | none => none
  | some row => aget row monthKey

def totalRevenueOf (data : List MemberData) : ℚ :=
  data.foldl (fun sum m => sum + parseFloatD m.AmountPaid) 0

def totalSessionsOf (data : List MemberData) : ℚ :=
  data.foldl (fun sum m => sum + parseFloatD m.TotalSessionsCompleted) 0

/-- `calculateAnalytics` of the source, with the wall clock `now` (epoch
milliseconds) passed explicitly. -/
def calculateAnalytics (data : List MemberData) (now : Int) : ChurnAnalytics :=
  let totalMembers := data.length
  let activeMembers := (data.filter (fun m => m.Status == "Active")).length
  let lapsedMembers := (data.filter (fun m => m.Status == "Lapsed")).length
  let newMembers := (data.filter (fun m => isNewMember now m)).length
  let highRiskMembers := (data.filter (fun m => isHighRiskMember m)).length
  let frozenMembers := (data.filter (fun m => isFrozenMember m)).length
  let churnRate : ℚ :=
    if totalMembers > 0 then ((lapsedMembers : ℚ) / (totalMembers : ℚ)) * 100 else 0
  let totalRevenue := totalRevenueOf data
  let totalSessions := totalSessionsOf data
  let avgSessionsPerMember : ℚ :=
    if totalMembers > 0 then totalSessions / (totalMembers : ℚ) else 0
  let avgRevenuePerSession : ℚ :=
    if totalSessions > 0 then totalRevenue / totalSessions else 0
  { totalMembers := totalMembers
    activeMembers := activeMembers
    lapsedMembers := lapsedMembers
    newMembers := newMembers
    highRiskMembers := highRiskMembers
    frozenMembers := frozenMembers
    churnRate := churnRate
    totalRevenue := totalRevenue
    avgSessionsPerMember := avgSessionsPerMember
    avgRevenuePerSession := avgRevenuePerSession
    locationBreakdown := locationBreakdownOf now data
    monthlyChurn := monthlyChurnOf data
    locationMonthlyData := locationMonthlyDataOf now data }

/-! ### Filter engine (Index.tsx filteredData and analytics.ts filterByDateRange) -/

structure FilterState where
  status : List String := []
  location : List String := []
  membershipName : List String := []
  dateRangeStart : String := ""
  dateRangeEnd : String := ""
  searchQuery : String := ""
deriving DecidableEq

/-- `filterByDateRange` of the source.  An invalid (unparseable) bound string
is modelled as an absent bound: in the source such a bound is an Invalid Date
whose NaN comparisons are always false, so it never excludes a record, which
is exactly what an absent bound does. -/
def filterByDateRange (data : List MemberData) (startDate endDate : String) :
    List MemberData :=
  if startDate = "" ∧ endDate = "" then data
  else
    let start := if startDate = "" then none else jsNewDate startDate
    let endD := if endDate = "" then none else jsNewDate endDate
    data.filter (fun m =>
      match parseDate m.PurchaseDate with
      | none => true
      | some purchaseDate =>
        let failStart := match start with
          | some s => jsLt purchaseDate s
          | none => false
        let failEnd := match endD with
          | some e => jsLt e purchaseDate
          | none => false
        !(failStart || failEnd))

/-- Substring test on character lists; `listContainsSub [] hay = true`, as for
the host `includes`. -/
def listContainsSub : List Char → List Char → Bool
  | needle, [] => needle.isEmpty
  | needle, c :: rest => needle.isPrefixOf (c :: rest) || listContainsSub needle rest

/-- `hay.includes(needle)`. -/
def strIncludes (hay needle : String) : Bool := listContainsSub needle.data hay.data

/-- The free-text dimension of the filter: the lowercased query occurs in one
of name, id, location, membership name (lowercased). -/
def searchMatches (query : String) (m : MemberData) : Bool :=
  let search := strToLower query
  [m.MemberName, m.MemberID, m.PrimaryLocation, m.MembershipName].any
    (fun f => strIncludes (strToLower f) search)

/-- The `filteredData` memo of Index.tsx: the date-range filter first (only
when one of its bounds is set), then the early-return conjunction of the
status, location, membership and free-text dimensions. -/
def filteredData (data : List MemberData) (filters : FilterState) : List MemberData :=
  let result :=
    if filters.dateRangeStart ≠ "" ∨ filters.dateRangeEnd ≠ "" then
      filterByDateRange data filters.dateRangeStart filters.dateRangeEnd
    else data
  result.filter (fun item =>
    if filters.status.length > 0 && !(filters.status.contains item.Status) then false
    else if filters.location.length > 0 && !(filters.location.contains item.PrimaryLocation) then
      false
    else if filters.membershipName.length > 0
        && !(filters.membershipName.contains item.MembershipName) then false
    else if filters.searchQuery != "" && !(searchMatches filters.searchQuery item) then false
    else true)

/-! ### Schema normalizer (csvParser.ts) -/

/-- The alias table of the source, verbatim: canonical column name → accepted
header spellings. -/
def COLUMN_MAPPINGS : List (String × List String) :=
  [("Member Name", ["Member Name", "Name", "Member", "Full Name", "Customer Name", "Client Name"]),
   ("Member ID", ["Member ID", "ID", "MemberID", "Customer ID", "Client ID"]),
   ("Host ID", ["Host ID", "HostID", "Host"]),
   ("Status", ["Status", "Member Status", "Account Status", "Membership Status"]),
   ("Membership Name", ["Membership Name", "Membership", "Plan", "Plan Name", "Subscription", "Package"]),
   ("Sessions Limit", ["Sessions Limit", "Session Limit", "Max Sessions", "Total Sessions"]),
   ("Purchase Date", ["Purchase Date", "Purchased", "Date Purchased", "Buy Date", "Order Date"]),
   ("Start Date", ["Start Date", "Started", "Begin Date", "Activation Date"]),
   ("End Date", ["End Date", "Ended", "Expiry Date", "Expiration Date", "Expire Date"]),
   ("Churned Date", ["Churned Date", "Churn Date", "Cancelled Date", "Cancellation Date", "Lapsed Date"]),
   ("Amount Paid", ["Amount Paid", "Amount", "Total Amount", "Payment", "Price", "Revenue", "Total Paid"]),
   ("Discount Code", ["Discount Code", "Promo Code", "Coupon", "Voucher"]),
   ("Discount Value", ["Discount Value", "Discount", "Discount Amount"]),
   ("Original Amount (Before Discount)", ["Original Amount (Before Discount)", "Original Amount", "Base Price"]),
   ("Sold By", ["Sold By", "Salesperson", "Agent", "Rep"]),
   ("Most Recent Visit Date", ["Most Recent Visit Date", "Last Visit", "Last Visit Date", "Recent Visit"]),
   ("First Visit Date", ["First Visit Date", "First Visit", "Initial Visit"]),
   ("Total Sessions Completed", ["Total Sessions Completed", "Sessions Completed", "Completed Sessions", "Sessions Used"]),
   ("Sessions Used %", ["Sessions Used %", "Session Usage", "Usage %", "Sessions Used Percentage"]),
   ("Remaining Sessions", ["Remaining Sessions", "Sessions Remaining", "Sessions Left"]),
   ("Total Cancellations", ["Total Cancellations", "Cancellations", "Cancelled Sessions"]),
   ("Late Cancellations", ["Late Cancellations", "Late Cancels", "Late Cancel Count"]),
   ("No Shows", ["No Shows", "NoShows", "No Show Count", "Missed Sessions"]),
   ("Cancellation Rate %", ["Cancellation Rate %", "Cancellation Rate", "Cancel Rate", "Cancellation %"]),
   ("Preferred Booking Method", ["Preferred Booking Method", "Booking Method", "Booking Preference"]),
   ("Primary Location", ["Primary Location", "Location", "Studio", "Branch", "Gym", "Center", "Centre"]),
   ("Locations Attended", ["Locations Attended", "Visited Locations", "Studios Visited"]),
   ("Membership Freeze Count", ["Membership Freeze Count", "Freeze Count", "Freezes", "Pauses"]),
   ("Days Frozen", ["Days Frozen", "Frozen Days", "Freeze Days"]),
   ("Membership Duration (Days)", ["Membership Duration (Days)", "Duration", "Duration Days", "Tenure"]),
   ("Days Active", ["Days Active", "Active Days", "Days Since Start"]),
   ("Days Since Last Visit", ["Days Since Last Visit", "Days Inactive", "Inactivity Days", "Last Visit Days Ago"]),
   ("Average Sessions Per Month", ["Average Sessions Per Month", "Avg Sessions", "Monthly Sessions", "Sessions/Month"]),
   ("Revenue Per Session", ["Revenue Per Session", "Rev/Session", "Session Value"]),
   ("Attendance Rate %", ["Attendance Rate %", "Attendance Rate", "Attendance %", "Attendance"]),
   ("Created By", ["Created By", "Creator", "Added By"])]

/-- The acceptable header spellings for a target column (the column's own name
when it is not in the table). -/
def possibleNamesOf (targetColumn : String) : List String :=
  (aget COLUMN_MAPPINGS targetColumn).getD [targetColumn]

/-- `findMatchingColumn`: the first CSV header whose trimmed, lowercased text
equals any acceptable spelling (lowercased) of the target column. -/
def findMatchingColumn (csvHeaders : List String) (targetColumn : String) : Option String :=
  let possibleNames := possibleNamesOf targetColumn
  csvHeaders.find? (fun header =>
    possibleNames.any (fun possibleName => strToLower (strTrim header) == strToLower possibleName))

/-- `Object.keys(COLUMN_MAPPINGS)`. -/
def expectedColumns : List String := COLUMN_MAPPINGS.map Prod.fst

/-- A raw CSV row: header → cell text, as delivered by the CSV parser. -/
abbrev RawRow := List (String × String)

/-- The passthrough guard on one raw key: some canonical column's alias set
matches it (such a key is NOT copied through). -/
def matchedByCanonical (key : String) : Bool :=
  expectedColumns.any (fun col => findMatchingColumn [key] col == some key)

/-- `normalizeRow` of the source: bind every canonical column (to the matched
header's cell, with `|| ""`, or to "" when no header matches), then copy
through every raw key not matched by any canonical column's alias set. -/
def normalizeRow (row : RawRow) (csvHeaders : List String) : RawRow :=
  let normalizedRow :=
    expectedColumns.foldl (fun acc expectedColumn =>
      match findMatchingColumn csvHeaders expectedColumn with
      | some actualColumn => objSet acc expectedColumn ((aget row actualColumn).getD "")
      | none => objSet acc expectedColumn "") []
  (row.map Prod.fst).foldl (fun acc key =>
    if matchedByCanonical key then acc
    else objSet acc key ((aget row key).getD "")) normalizedRow

/-- The normalization stage of `parseCSV`: one normalized record per data row
(the delimited-text parsing itself is the external CSV library). -/
def normalizeAllRows (rows : List RawRow) (csvHeaders : List String) : List RawRow :=
  rows.map (fun row => normalizeRow row csvHeaders)

/-- The value the claim says a canonical field is bound to: the matched
header's cell in the raw row (empty-string defaulted, as `row[h] || ""`), or
"" when no header matches. -/
def canonicalBind (row : RawRow) (csvHeaders : List String) (c : String) : String :=
  match findMatchingColumn csvHeaders c with
  | some h => (aget row h).getD ""
  | none => ""

/-! ### Specification-side definitions used to state the claims -/

/-- The calendar date (year, month, day) of a parsed date, for comparing two
parses "up to time of day". -/
def calDate (d : JSDate) : Int × Nat × Nat := (d.year, d.month, d.day)

/-- The number of true risk factors, written from the specification's wording:
attendance rate < 40, cancellation rate > 40, days-since-last-visit > 21,
no-shows ≥ 3, each numeric field parsed with unparseable values defaulting
to 0. -/
def riskFactorCount (m : MemberData) : Nat :=
  List.countP (fun b => b)
    [parseFloatD m.AttendanceRate < 40,
     parseFloatD m.CancellationRate > 40,
     parseIntD m.DaysSinceLastVisit > 21,
     parseIntD m.NoShows ≥ 3]

/-- Sum of one counter over all locations of the breakdown. -/
def locSum (g : LocationStats → Nat) (l : List (String × LocationStats)) : Nat :=
  (l.map (fun kv => g kv.2)).sum

/-- Spec-side date dimension: the record's Purchase Date lies inclusively
between the given bounds (at timestamp granularity); an absent or invalid
bound constrains nothing, and a record with no parseable Purchase Date passes
unconditionally. -/
def dateDimOK (filters : FilterState) (m : MemberData) : Bool :=
  match parseDate m.PurchaseDate with
  | none => true
  | some p =>
    (match (if filters.dateRangeStart = "" then none else jsNewDate filters.dateRangeStart) with
     | some s => !(jsLt p s)
     | none => true)
    && (match (if filters.dateRangeEnd = "" then none else jsNewDate filters.dateRangeEnd) with
     | some e => !(jsLt e p)
     | none => true)

/-- Spec-side filter predicate: the conjunction of the five criteria
dimensions, each trivially true when its criteria value is empty, with
membership (disjunction) inside each multi-select dimension and
case-insensitive substring match for the free-text dimension. -/
def satisfiesCriteria (filters : FilterState) (m : MemberData) : Bool :=
  (filters.status.isEmpty || filters.status.contains m.Status)
    && (filters.location.isEmpty || filters.location.contains m.PrimaryLocation)
    && (filters.membershipName.isEmpty || filters.membershipName.contains m.MembershipName)
    && dateDimOK filters m
    && (filters.searchQuery == "" || searchMatches filters.searchQuery m)

/-- The all-empty criteria: no constraint on any dimension. -/
def emptyCriteria : FilterState := {}

/-! ### Concrete records used by counterexamples and witnesses -/

/-- A record with a non-empty but unparseable Start Date and an empty
Churned Date: no parseable date at all, yet (being Active) it is counted into
the month matrix under the "Unknown" month key. -/
def mC1 : MemberData := { Status := "Active", StartDate := "zzz", PrimaryLocation := "A" }

/-- A record with an empty Start Date whose churned branch is not taken. -/
def mC1w : MemberData := { Status := "Active", PrimaryLocation := "A" }

/-- An Active record bucketed under ("B", "Unknown") via an unparseable
non-empty Start Date. -/
def mC2 : MemberData := { Status := "Active", StartDate := "x", PrimaryLocation := "B" }

/-- A non-Active record with an unparseable attendance rate. -/
def mC3 : MemberData := { Status := "Lapsed", AttendanceRate := "abc" }

/-- An Active record with a non-empty unparseable Start Date. -/
def mC10a : MemberData := { Status := "Active", StartDate := "zz", PrimaryLocation := "L1" }

/-- A Lapsed record with a non-empty unparseable Churned Date. -/
def mC10b : MemberData := { Status := "Lapsed", ChurnedDate := "qq" }

/-- A record whose Status is neither "Active" nor "Lapsed". -/
def mC9 : MemberData := { Status := "Frozen", PrimaryLocation := "A" }

/-- A raw CSV row with one recognized and one unrecognized header. -/
def rowC5 : RawRow := [("Name", "Ann"), ("Bogus", "42")]

def headersC5 : List String := ["Name", "Bogus"]

/-! ### Lemmas about the object model -/

theorem aget_objSet_self {β : Type} (m : List (String × β)) (k : String) (v : β) :
    aget (objSet m k v) k = some v := by
  induction m with
  | nil => simp [objSet, aget]
  | cons kv rest ih =>
    by_cases h : kv.1 = k
    · simp [objSet, aget, h]
    · simp [objSet, aget, h, ih]

theorem aget_objSet_ne {β : Type} (m : List (String × β)) (k k' : String) (v : β)
    (h : k' ≠ k) : aget (objSet m k v) k' = aget m k' := by
  induction m with
  | nil => simp [objSet, aget, Ne.symm h]
  | cons kv rest ih =>
    by_cases hk : kv.1 = k
    · simp [objSet, aget, hk, Ne.symm h]
    · simp only [objSet, if_neg hk]
      by_cases hk' : kv.1 = k'
      · simp [aget, hk']
      · simp [aget, hk', ih]

theorem aget_updAList_self {β : Type} (dflt : β) (f : β → β) (m : List (String × β))
    (k : String) : aget (updAList dflt f m k) k = some (f ((aget m k).getD dflt)) := by
  induction m with
  | nil => simp [updAList, aget]
  | cons kv rest ih =>
    by_cases h : kv.1 = k
    · simp [updAList, aget, h]
    · simp [updAList, aget, h, ih]

theorem aget_updAList_ne {β : Type} (dflt : β) (f : β → β) (m : List (String × β))
    (k k' : String) (h : k' ≠ k) : aget (updAList dflt f m k) k' = aget m k' := by
  induction m with
  | nil => simp [updAList, aget, Ne.symm h]
  | cons kv rest ih =>
    by_cases hk : kv.1 = k
    · simp [updAList, aget, hk, Ne.symm h]
    · simp only [updAList, if_neg hk]
      by_cases hk' : kv.1 = k'
      · simp [aget, hk']
      · simp [aget, hk', ih]

theorem aget_map_snd {β γ : Type} (g : β → γ) (m : List (String × β)) (k : String) :
    aget (m.map (fun kv => (kv.1, g kv.2))) k = (aget m k).map g := by
  induction m with
  | nil => simp [aget]
  | cons kv rest ih =>
    by_cases h : kv.1 = k
    · simp [aget, h]
    · simp [aget, h, ih]

/-! ### Lemmas about the location×month matrix -/

theorem cellGet_eq (mat : List (String × List (String × MonthLocationData)))
    (location monthKey : String) :
    cellGet mat location monthKey = aget ((aget mat location).getD []) monthKey := by
  unfold cellGet
  cases aget mat location with
  | none => simp [aget]
  | some row => simp

theorem cellGet_ensureRow (mat : List (String × List (String × MonthLocationData)))
    (loc l mo : String) :
    cellGet (updAList [] id mat loc) l mo = cellGet mat l mo := by
  rw [cellGet_eq, cellGet_eq]
  by_cases h : l = loc
  · subst h
    rw [aget_updAList_self]
    simp
  · rw [aget_updAList_ne _ _ _ _ _ h]

theorem cellGet_updCell_self (mat : List (String × List (String × MonthLocationData)))
    (loc mo : String) (f : MonthLocationData → MonthLocationData) :
    cellGet (updCell mat loc mo f) loc mo
      = some (f ((cellGet mat loc mo).getD emptyCell)) := by
  rw [cellGet_eq, cellGet_eq]
  unfold updCell
  rw [aget_updAList_self]
  simp [aget_updAList_self]

theorem cellGet_updCell_ne (mat : List (String × List (String × MonthLocationData)))
    (loc mo : String) (f : MonthLocationData → MonthLocationData) (l mo₂ : String)
    (h : l ≠ loc ∨ mo₂ ≠ mo) :
    cellGet (updCell mat loc mo f) l mo₂ = cellGet mat l mo₂ := by
  rw [cellGet_eq, cellGet_eq]
  unfold updCell
  rcases h with h | h
  · rw [aget_updAList_ne _ _ _ _ _ h]
  · by_cases hl : l = loc
    · subst hl
      rw [aget_updAList_self]
      simp [aget_updAList_ne _ _ _ _ _ h]
    · rw [aget_updAList_ne _ _ _ _ _ hl]

theorem cellGet_updCell_ne_none (mat : List (String × List (String × MonthLocationData)))
    (loc mo : String) (f : MonthLocationData → MonthLocationData) (l mo₂ : String)
    (h : cellGet mat l mo₂ ≠ none) :
    cellGet (updCell mat loc mo f) l mo₂ ≠ none := by
  by_cases hl : l = loc
  · by_cases hm : mo₂ = mo
    · subst hl; subst hm
      rw [cellGet_updCell_self]
      exact Option.some_ne_none _
    · rw [cellGet_updCell_ne _ _ _ _ _ _ (Or.inr hm)]
      exact h
  · rw [cellGet_updCell_ne _ _ _ _ _ _ (Or.inl hl)]
    exact h

theorem cellGet_finalizeMatrix (mat : List (String × List (String × MonthLocationData)))
    (l mo : String) :
    cellGet (finalizeMatrix mat) l mo = (cellGet mat l mo).map setCellChurnRate := by
  rw [cellGet_eq, cellGet_eq]
  unfold finalizeMatrix
  rw [aget_map_snd]
  cases aget mat l with
  | none => simp [aget]
  | some row => simp [aget_map_snd]

/-- A record whose start branch and churned branch are both skipped leaves
every cell of the matrix unchanged (it can at most create an empty location
row). -/
theorem cellGet_matrixStep_skip (now : Int)
    (acc : List (String × List (String × MonthLocationData))) (m : MemberData)
    (h1 : m.StartDate = "") (h2 : ¬(m.Status = "Lapsed" ∧ m.ChurnedDate ≠ ""))
    (l mo : String) :
    cellGet (matrixStep now acc m) l mo = cellGet acc l mo := by
  unfold matrixStep
  simp only [h1, ne_eq, not_true_eq_false, if_false, if_neg h2]
  exact cellGet_ensureRow acc (locationOf m) l mo

/-- A record with a non-empty Start Date string always has a cell at
(its location, month key of its start date) after its matrix step. -/
theorem cellGet_matrixStep_start (now : Int)
    (acc : List (String × List (String × MonthLocationData))) (m : MemberData)
    (h1 : m.StartDate ≠ "") :
    cellGet (matrixStep now acc m) (locationOf m) (getMonthYear m.StartDate) ≠ none := by
  unfold matrixStep
  simp only [ne_eq, h1, not_false_eq_true, if_true, if_pos]
  by_cases h2 : m.Status = "Lapsed" ∧ m.ChurnedDate ≠ ""
  · rw [if_pos h2]
    apply cellGet_updCell_ne_none
    rw [cellGet_updCell_self]
    exact Option.some_ne_none _
  · rw [if_neg h2]
    rw [cellGet_updCell_self]
    exact Option.some_ne_none _

/-- A Lapsed record with a non-empty Churned Date string always has a cell at
(its location, month key of its churned date) after its matrix step. -/
theorem cellGet_matrixStep_churn (now : Int)
    (acc : List (String × List (String × MonthLocationData))) (m : MemberData)
    (h2 : m.Status = "Lapsed" ∧ m.ChurnedDate ≠ "") :
    cellGet (matrixStep now acc m) (locationOf m) (getMonthYear m.ChurnedDate) ≠ none := by
  unfold matrixStep
  rw [if_pos h2]
  by_cases h1 : m.StartDate ≠ ""
  · rw [if_pos h1, cellGet_updCell_self]
    exact Option.some_ne_none _
  · rw [if_neg h1, cellGet_updCell_self]
    exact Option.some_ne_none _

/-! ### Projection lemmas for `calculateAnalytics` -/

theorem calc_totalMembers (data : List MemberData) (now : Int) :
    (calculateAnalytics data now).totalMembers = data.length := rfl

theorem calc_activeMembers (data : List MemberData) (now : Int) :
    (calculateAnalytics data now).activeMembers
      = (data.filter (fun m => m.Status == "Active")).length := rfl

theorem calc_lapsedMembers (data : List MemberData) (now : Int) :
    (calculateAnalytics data now).lapsedMembers
      = (data.filter (fun m => m.Status == "Lapsed")).length := rfl

theorem calc_newMembers (data : List MemberData) (now : Int) :
    (calculateAnalytics data now).newMembers
      = (data.filter (fun m => isNewMember now m)).length := rfl

theorem calc_frozenMembers (data : List MemberData) (now : Int) :
    (calculateAnalytics data now).frozenMembers
      = (data.filter (fun m => isFrozenMember m)).length := rfl

theorem calc_churnRate (data : List MemberData) (now : Int) :
    (calculateAnalytics data now).churnRate
      = if data.length > 0 then
          (((data.filter (fun m => m.Status == "Lapsed")).length : ℚ) / (data.length : ℚ)) * 100
        else 0 := rfl

theorem calc_avgSessionsPerMember (data : List MemberData) (now : Int) :
    (calculateAnalytics data now).avgSessionsPerMember
      = if data.length > 0 then totalSessionsOf data / (data.length : ℚ) else 0 := rfl

theorem calc_avgRevenuePerSession (data : List MemberData) (now : Int) :
    (calculateAnalytics data now).avgRevenuePerSession
      = if totalSessionsOf data > 0 then totalRevenueOf data / totalSessionsOf data else 0 := rfl

theorem calc_locationBreakdown (data : List MemberData) (now : Int) :
    (calculateAnalytics data now).locationBreakdown = locationBreakdownOf now data := rfl

theorem calc_locationMonthlyData (data : List MemberData) (now : Int) :
    (calculateAnalytics data now).locationMonthlyData = locationMonthlyDataOf now data := rfl

/-! ### The claims -/

/-- **C8**: the date parser is total and never throws (it is a total function
into `Option`): the empty and every whitespace-only string yield `none`; a
garbage string yields `none`; one comma is stripped before parsing, so
"2025-10-31, 21:50:13" parses to the same calendar date as "2025-10-31". -/
theorem claim_C8 :
    parseDate "" = none
    ∧ (∀ s : String, strTrim s = "" → parseDate s = none)
    ∧ parseDate "garbage" = none
    ∧ (parseDate "2025-10-31, 21:50:13").map calDate = some ((2025 : Int), 10, 31)
    ∧ (parseDate "2025-10-31").map calDate = some ((2025 : Int), 10, 31) := by
  refine ⟨by decide, ?_, by decide, by decide, by decide⟩
  intro s h
  unfold parseDate
  rw [if_pos (Or.inr h)]

theorem claim_C8_witness :
    strTrim "  " = "" ∧ parseDate "  " = none :=
  ⟨by decide, claim_C8.2.1 "  " (by decide)⟩

/-- **C10**: `getMonthYear` returns the literal "Unknown" on every non-empty
unparseable string; consequently a record whose Start Date (or, for a Lapsed
record, Churned Date) is non-empty but unparseable is bucketed into the
location×month matrix of the aggregator under the month key "Unknown" rather
than being excluded (stated for the record's own contribution, i.e. with the
record appended to an arbitrary input list). -/
theorem claim_C10 :
    (∀ s : String, s ≠ "" → parseDate s = none → getMonthYear s = "Unknown")
    ∧ (∀ (now : Int) (data : List MemberData) (m : MemberData),
        m.StartDate ≠ "" → parseDate m.StartDate = none →
        cellGet (calculateAnalytics (data ++ [m]) now).locationMonthlyData
          (locationOf m) "Unknown" ≠ none)
    ∧ (∀ (now : Int) (data : List MemberData) (m : MemberData),
        m.Status = "Lapsed" → m.ChurnedDate ≠ "" → parseDate m.ChurnedDate = none →
        cellGet (calculateAnalytics (data ++ [m]) now).locationMonthlyData
          (locationOf m) "Unknown" ≠ none) := by
  have hmy : ∀ s : String, parseDate s = none → getMonthYear s = "Unknown" := by
    intro s h
    unfold getMonthYear
    rw [h]
  refine ⟨fun s _ h => hmy s h, ?_, ?_⟩
  · intro now data m h1 hp
    rw [calc_locationMonthlyData]
    unfold locationMonthlyDataOf
    rw [List.foldl_append]
    simp only [List.foldl_cons, List.foldl_nil]
    rw [cellGet_finalizeMatrix]
    have hs := cellGet_matrixStep_start now (data.foldl (matrixStep now) []) m h1
    rw [hmy m.StartDate hp] at hs
    intro hmap
    exact hs (Option.map_eq_none'.mp hmap)
  · intro now data m hst h1 hp
    rw [calc_locationMonthlyData]
    unfold locationMonthlyDataOf
    rw [List.foldl_append]
    simp only [List.foldl_cons, List.foldl_nil]
    rw [cellGet_finalizeMatrix]
    have hs := cellGet_matrixStep_churn now (data.foldl (matrixStep now) []) m ⟨hst, h1⟩
    rw [hmy m.ChurnedDate hp] at hs
    intro hmap
    exact hs (Option.map_eq_none'.mp hmap)

theorem claim_C10_witness :
    (mC10a.StartDate ≠ "" ∧ parseDate mC10a.StartDate = none
      ∧ getMonthYear mC10a.StartDate = "Unknown"
      ∧ cellGet (calculateAnalytics [mC10a] 0).locationMonthlyData
          (locationOf mC10a) "Unknown" ≠ none)
    ∧ (mC10b.Status = "Lapsed" ∧ mC10b.ChurnedDate ≠ ""
      ∧ parseDate mC10b.ChurnedDate = none
      ∧ cellGet (calculateAnalytics [mC10b] 0).locationMonthlyData
          (locationOf mC10b) "Unknown" ≠ none) :=
  ⟨⟨by decide, by decide, claim_C10.1 mC10a.StartDate (by decide) (by decide),
     claim_C10.2.1 0 [] mC10a (by decide) (by decide)⟩,
   ⟨rfl, by decide, by decide, claim_C10.2.2 0 [] mC10b rfl (by decide) (by decide)⟩⟩

/-- **C1 counterexample**: the claim gates the month matrix on *parseable*
dates, but the source gates on string *emptiness*: `mC1` has no parseable
Start Date and no parseable Churned Date (its Start Date is the non-empty
unparseable "zzz", its Churned Date is empty), yet it contributes an active
count of 1 to the cell ("A", "Unknown") of `locationMonthlyData` — the empty
input produces no such cell. -/
theorem claim_C1_counterexample :
    parseDate mC1.StartDate = none
    ∧ parseDate mC1.ChurnedDate = none
    ∧ (cellGet (calculateAnalytics [mC1] 0).locationMonthlyData "A" "Unknown").map
        (fun c => c.active) = some 1
    ∧ cellGet (calculateAnalytics ([] : List MemberData) 0).locationMonthlyData "A" "Unknown"
        = none :=
  ⟨by decide, by decide, by decide, by decide⟩

/-- **C1 (amended)**: a record whose Start Date is the *empty string* and
whose churned branch is not taken (Status ≠ "Lapsed" or Churned Date empty)
contributes nothing to any cell of `locationMonthlyData`: its matrix step
leaves every cell unchanged, and appending it to any input changes no cell of
the aggregator's matrix (the gate is string emptiness, not parseability; such
a record still counts into the scalar totals and the location breakdown). -/
theorem claim_C1_amended :
    ∀ (now : Int) (m : MemberData), m.StartDate = "" →
      ¬(m.Status = "Lapsed" ∧ m.ChurnedDate ≠ "") →
      (∀ (acc : List (String × List (String × MonthLocationData))) (l mo : String),
        cellGet (matrixStep now acc m) l mo = cellGet acc l mo)
      ∧ (∀ (data : List MemberData) (l mo : String),
          cellGet (calculateAnalytics (data ++ [m]) now).locationMonthlyData l mo
            = cellGet (calculateAnalytics data now).locationMonthlyData l mo) := by
  intro now m h1 h2
  refine ⟨fun acc l mo => cellGet_matrixStep_skip now acc m h1 h2 l mo, ?_⟩
  intro data l mo
  rw [calc_locationMonthlyData, calc_locationMonthlyData]
  unfold locationMonthlyDataOf
  rw [List.foldl_append]
  simp only [List.foldl_cons, List.foldl_nil]
  rw [cellGet_finalizeMatrix, cellGet_finalizeMatrix,
    cellGet_matrixStep_skip now _ m h1 h2 l mo]

theorem claim_C1_amended_witness :
    mC1w.StartDate = ""
    ∧ ¬(mC1w.Status = "Lapsed" ∧ mC1w.ChurnedDate ≠ "")
    ∧ cellGet (calculateAnalytics [mC1w] 0).locationMonthlyData "A" "Jan 2025"
        = cellGet (calculateAnalytics ([] : List MemberData) 0).locationMonthlyData "A" "Jan 2025" :=
  ⟨rfl, by decide, (claim_C1_amended 0 mC1w rfl (by decide)).2 [] "A" "Jan 2025"⟩

/-- **C3**: `isHighRiskMember` is true iff the Status is exactly "Active" and
at least 2 of the 4 risk factors hold (attendance < 40, cancellation > 40,
days-since-last-visit > 21, no-shows ≥ 3, unparseable numerics defaulting
to 0); it is false for every non-Active record, and an unparseable attendance
rate makes the low-attendance factor true. -/
theorem claim_C3 :
    ∀ m : MemberData,
      (isHighRiskMember m = true ↔ (m.Status = "Active" ∧ 2 ≤ riskFactorCount m))
      ∧ (m.Status ≠ "Active" → isHighRiskMember m = false)
      ∧ (jsParseFloat m.AttendanceRate = none → lowAttendance m = true) := by
  intro m
  have hcount : riskFactorCount m
      = ([lowAttendance m, highCancellation m, longAbsence m,
          frequentNoShows m].filter (fun b => b)).length := by
    rw [riskFactorCount, List.countP_eq_length_filter]
    rfl
  refine ⟨?_, ?_, ?_⟩
  · unfold isHighRiskMember
    by_cases h : m.Status = "Active"
    · rw [if_neg (not_not_intro h)]
      simp only [decide_eq_true_eq, ge_iff_le]
      rw [← hcount]
      exact ⟨fun hge => ⟨h, hge⟩, fun hc => hc.2⟩
    · rw [if_pos h]
      simp only [Bool.false_eq_true, false_iff]
      exact fun hc => h hc.1
  · intro h
    unfold isHighRiskMember
    rw [if_pos h]
  · intro h
    unfold lowAttendance parseFloatD
    rw [h]
    decide

theorem claim_C3_witness :
    mC3.Status ≠ "Active"
    ∧ jsParseFloat mC3.AttendanceRate = none
    ∧ isHighRiskMember mC3 = false
    ∧ lowAttendance mC3 = true :=
  ⟨by decide, by decide, (claim_C3 mC3).2.1 (by decide), (claim_C3 mC3).2.2 (by decide)⟩

/-- **C6**: the aggregator never divides by zero and its scalar outputs are
never NaN (they live in ℚ, with every division guarded): on the empty list
all scalar counts are 0 and churnRate is 0, and on every input churnRate and
avgSessionsPerMember are 0 whenever totalMembers is 0, and
avgRevenuePerSession is 0 whenever totalSessions is 0. -/
theorem claim_C6 :
    (∀ now : Int,
      (calculateAnalytics [] now).totalMembers = 0
      ∧ (calculateAnalytics [] now).activeMembers = 0
      ∧ (calculateAnalytics [] now).lapsedMembers = 0
      ∧ (calculateAnalytics [] now).newMembers = 0
      ∧ (calculateAnalytics [] now).highRiskMembers = 0
      ∧ (calculateAnalytics [] now).frozenMembers = 0
      ∧ (calculateAnalytics [] now).churnRate = 0)
    ∧ (∀ (data : List MemberData) (now : Int),
        (calculateAnalytics data now).totalMembers = 0 →
        (calculateAnalytics data now).churnRate = 0
        ∧ (calculateAnalytics data now).avgSessionsPerMember = 0)
    ∧ (∀ (data : List MemberData) (now : Int),
        totalSessionsOf data = 0 →
        (calculateAnalytics data now).avgRevenuePerSession = 0) := by
  refine ⟨fun now => ⟨rfl, rfl, rfl, rfl, rfl, rfl, rfl⟩, ?_, ?_⟩
  · intro data now h
    rw [calc_totalMembers] at h
    rw [calc_churnRate, calc_avgSessionsPerMember, h]
    simp
  · intro data now h
    rw [calc_avgRevenuePerSession, h]
    simp

theorem claim_C6_witness :
    (calculateAnalytics ([] : List MemberData) 5).totalMembers = 0
    ∧ totalSessionsOf ([] : List MemberData) = 0
    ∧ (calculateAnalytics ([] : List MemberData) 5).churnRate = 0
    ∧ (calculateAnalytics ([] : List MemberData) 5).avgSessionsPerMember = 0
    ∧ (calculateAnalytics ([] : List MemberData) 5).avgRevenuePerSession = 0 :=
  ⟨rfl, rfl, (claim_C6.2.1 [] 5 rfl).1, (claim_C6.2.1 [] 5 rfl).2, claim_C6.2.2 [] 5 rfl⟩

theorem setCellChurnRate_active (c : MonthLocationData) :
    (setCellChurnRate c).active = c.active := by
  unfold setCellChurnRate
  by_cases h : c.active + c.lapsed > 0 <;> simp [h]

theorem setCellChurnRate_lapsed (c : MonthLocationData) :
    (setCellChurnRate c).lapsed = c.lapsed := by
  unfold setCellChurnRate
  by_cases h : c.active + c.lapsed > 0 <;> simp [h]

theorem setCellChurnRate_churnRate (c : MonthLocationData) :
    (setCellChurnRate c).churnRate
      = if c.active + c.lapsed > 0 then
          ((c.lapsed : ℚ) / ((c.active + c.lapsed : Nat) : ℚ)) * 100
        else 0 := by
  unfold setCellChurnRate
  by_cases h : c.active + c.lapsed > 0 <;> simp [h]

/-- **C2**: every cell present in the aggregator's location×month matrix has
churnRate = lapsed/(active+lapsed)×100 computed from that same cell's counts,
and churnRate = 0 on a zero denominator.  The rates live in ℚ, which has no
NaN, and the division is guarded, so no cell's churnRate is NaN. -/
theorem claim_C2 :
    ∀ (data : List MemberData) (now : Int) (l mo : String) (cell : MonthLocationData),
      cellGet (calculateAnalytics data now).locationMonthlyData l mo = some cell →
      cell.churnRate =
        (if cell.active + cell.lapsed = 0 then 0
         else ((cell.lapsed : ℚ) / ((cell.active : ℚ) + (cell.lapsed : ℚ))) * 100) := by
  intro data now l mo cell h
  rw [calc_locationMonthlyData] at h
  unfold locationMonthlyDataOf at h
  rw [cellGet_finalizeMatrix] at h
  cases hM : cellGet (data.foldl (matrixStep now) []) l mo with
  | none =>
    rw [hM] at h
    simp at h
  | some c0 =>
    rw [hM] at h
    simp only [Option.map_some', Option.some.injEq] at h
    subst h
    rw [setCellChurnRate_churnRate, setCellChurnRate_active, setCellChurnRate_lapsed]
    rcases Nat.eq_zero_or_pos (c0.active + c0.lapsed) with hz | hz
    · rw [if_neg (by omega), if_pos hz]
    · rw [if_pos hz, if_neg (by omega)]
      push_cast
      rfl

theorem claim_C2_witness :
    (cellGet (calculateAnalytics [mC2] 0).locationMonthlyData "B" "Unknown").isSome = true
    ∧ ((cellGet (calculateAnalytics [mC2] 0).locationMonthlyData "B" "Unknown").getD
          emptyCell).churnRate =
        (if ((cellGet (calculateAnalytics [mC2] 0).locationMonthlyData "B" "Unknown").getD
              emptyCell).active
            + ((cellGet (calculateAnalytics [mC2] 0).locationMonthlyData "B" "Unknown").getD
              emptyCell).lapsed = 0 then 0
         else ((((cellGet (calculateAnalytics [mC2] 0).locationMonthlyData "B" "Unknown").getD
              emptyCell).lapsed : ℚ)
            / ((((cellGet (calculateAnalytics [mC2] 0).locationMonthlyData "B" "Unknown").getD
              emptyCell).active : ℚ)
              + (((cellGet (calculateAnalytics [mC2] 0).locationMonthlyData "B" "Unknown").getD
              emptyCell).lapsed : ℚ))) * 100) := by
  have hs : (cellGet (calculateAnalytics [mC2] 0).locationMonthlyData "B" "Unknown").isSome
      = true := by decide
  refine ⟨hs, claim_C2 [mC2] 0 "B" "Unknown" _ ?_⟩
  cases hc : cellGet (calculateAnalytics [mC2] 0).locationMonthlyData "B" "Unknown" with
  | none => rw [hc] at hs; simp at hs
  | some c => rfl

/-! ### Lemmas for the location-breakdown sums -/

theorem locSum_nil (g : LocationStats → Nat) : locSum g [] = 0 := rfl

theorem locSum_cons (g : LocationStats → Nat) (k : String) (v : LocationStats)
    (rest : List (String × LocationStats)) :
    locSum g ((k, v) :: rest) = g v + locSum g rest := by
  simp [locSum]

theorem locSum_updAList (g : LocationStats → Nat) (d : LocationStats)
    (f : LocationStats → LocationStats) (c : Nat) (hd : g d = 0)
    (hf : ∀ v, g (f v) = g v + c) (l : List (String × LocationStats)) (k : String) :
    locSum g (updAList d f l k) = locSum g l + c := by
  induction l with
  | nil => simp [updAList, locSum, hf, hd]
  | cons kv rest ih =>
    obtain ⟨k1, v1⟩ := kv
    by_cases h : k1 = k
    · rw [updAList, if_pos h, locSum_cons, locSum_cons]
      rw [hf]
      omega
    · rw [updAList, if_neg h, locSum_cons, locSum_cons, ih]
      omega

theorem locSum_add (g1 g2 : LocationStats → Nat) (l : List (String × LocationStats)) :
    locSum (fun s => g1 s + g2 s) l = locSum g1 l + locSum g2 l := by
  induction l with
  | nil => rfl
  | cons kv rest ih =>
    obtain ⟨k1, v1⟩ := kv
    rw [locSum_cons, locSum_cons, locSum_cons, ih]
    omega

theorem locSum_foldl (g : LocationStats → Nat) (p : MemberData → Bool) (now : Int)
    (hstep : ∀ (m : MemberData) (s : LocationStats),
      g (locStepFun now m s) = g s + (if p m then 1 else 0))
    (hd : g ⟨0, 0, 0, 0⟩ = 0) (data : List MemberData) :
    ∀ acc : List (String × LocationStats),
      locSum g (data.foldl (locationStep now) acc) = locSum g acc + (data.filter p).length := by
  induction data with
  | nil => intro acc; simp
  | cons m rest ih =>
    intro acc
    simp only [List.foldl_cons]
    rw [ih (locationStep now acc m)]
    unfold locationStep
    rw [locSum_updAList g _ _ (if p m then 1 else 0) hd (fun v => hstep m v)]
    by_cases hp : p m
    · simp only [List.filter_cons, hp, if_true, List.length_cons]
      omega
    · simp only [List.filter_cons, hp, Bool.false_eq_true, if_false]
      omega

theorem locStepFun_active (now : Int) (m : MemberData) (s : LocationStats) :
    (locStepFun now m s).active = s.active + (if m.Status == "Active" then 1 else 0) := by
  unfold locStepFun
  by_cases h1 : m.Status = "Active" <;>
    by_cases h2 : isNewMember now m <;>
      by_cases h3 : isFrozenMember m <;>
        by_cases h4 : m.Status = "Lapsed" <;>
          simp [h1, h2, h3, h4]

theorem locStepFun_lapsed (now : Int) (m : MemberData) (s : LocationStats) :
    (locStepFun now m s).lapsed = s.lapsed + (if m.Status == "Lapsed" then 1 else 0) := by
  unfold locStepFun
  by_cases h1 : m.Status = "Active" <;>
    by_cases h2 : isNewMember now m <;>
      by_cases h3 : isFrozenMember m <;>
        by_cases h4 : m.Status = "Lapsed" <;>
          simp_all

theorem locStepFun_new (now : Int) (m : MemberData) (s : LocationStats) :
    (locStepFun now m s).new = s.new + (if isNewMember now m then 1 else 0) := by
  unfold locStepFun
  by_cases h1 : m.Status = "Active" <;>
    by_cases h2 : isNewMember now m <;>
      by_cases h3 : isFrozenMember m <;>
        by_cases h4 : m.Status = "Lapsed" <;>
          simp [h1, h2, h3, h4]

theorem locStepFun_frozen (now : Int) (m : MemberData) (s : LocationStats) :
    (locStepFun now m s).frozen = s.frozen + (if isFrozenMember m then 1 else 0) := by
  unfold locStepFun
  by_cases h1 : m.Status = "Active" <;>
    by_cases h2 : isNewMember now m <;>
      by_cases h3 : isFrozenMember m <;>
        by_cases h4 : m.Status = "Lapsed" <;>
          simp [h1, h2, h3, h4]

theorem locSum_active_eq (now : Int) (data : List MemberData) :
    locSum (fun s => s.active) (locationBreakdownOf now data)
      = (data.filter (fun m => m.Status == "Active")).length := by
  unfold locationBreakdownOf
  rw [locSum_foldl (fun s => s.active) (fun m => m.Status == "Active") now
    (fun m s => by simpa using locStepFun_active now m s) rfl data []]
  simp [locSum_nil]

theorem locSum_lapsed_eq (now : Int) (data : List MemberData) :
    locSum (fun s => s.lapsed) (locationBreakdownOf now data)
      = (data.filter (fun m => m.Status == "Lapsed")).length := by
  unfold locationBreakdownOf
  rw [locSum_foldl (fun s => s.lapsed) (fun m => m.Status == "Lapsed") now
    (fun m s => by simpa using locStepFun_lapsed now m s) rfl data []]
  simp [locSum_nil]

theorem locSum_new_eq (now : Int) (data : List MemberData) :
    locSum (fun s => s.new) (locationBreakdownOf now data)
      = (data.filter (fun m => isNewMember now m)).length := by
  unfold locationBreakdownOf
  rw [locSum_foldl (fun s => s.new) (fun m => isNewMember now m) now
    (fun m s => by simpa using locStepFun_new now m s) rfl data []]
  simp [locSum_nil]

theorem locSum_frozen_eq (now : Int) (data : List MemberData) :
    locSum (fun s => s.frozen) (locationBreakdownOf now data)
      = (data.filter (fun m => isFrozenMember m)).length := by
  unfold locationBreakdownOf
  rw [locSum_foldl (fun s => s.frozen) (fun m => isFrozenMember m) now
    (fun m s => by simpa using locStepFun_frozen now m s) rfl data []]
  simp [locSum_nil]

/-- **C7**: the per-location counts of the location breakdown sum to the
global counts: the active counts sum to activeMembers, and likewise for
lapsed, new and frozen (every record lands in exactly one location group and
the same per-record predicates drive both passes). -/
theorem claim_C7 :
    ∀ (data : List MemberData) (now : Int),
      locSum (fun s => s.active) (calculateAnalytics data now).locationBreakdown
        = (calculateAnalytics data now).activeMembers
      ∧ locSum (fun s => s.lapsed) (calculateAnalytics data now).locationBreakdown
        = (calculateAnalytics data now).lapsedMembers
      ∧ locSum (fun s => s.new) (calculateAnalytics data now).locationBreakdown
        = (calculateAnalytics data now).newMembers
      ∧ locSum (fun s => s.frozen) (calculateAnalytics data now).locationBreakdown
        = (calculateAnalytics data now).frozenMembers := by
  intro data now
  rw [calc_locationBreakdown, calc_activeMembers, calc_lapsedMembers, calc_newMembers,
    calc_frozenMembers]
  exact ⟨locSum_active_eq now data, locSum_lapsed_eq now data, locSum_new_eq now data,
    locSum_frozen_eq now data⟩

/-! ### Lemmas for the status partition -/

theorem length_filter_add_le {α : Type} (p q : α → Bool)
    (hdisj : ∀ m, ¬(p m = true ∧ q m = true)) (data : List α) :
    (data.filter p).length + (data.filter q).length ≤ data.length := by
  induction data with
  | nil => simp
  | cons m rest ih =>
    simp only [List.filter_cons]
    by_cases hp : p m
    · have hq : ¬(q m = true) := fun hq => hdisj m ⟨hp, hq⟩
      simp only [hp, if_true, hq, Bool.not_eq_true] at *
      simp only [List.length_cons, List.length, Bool.false_eq_true, if_false]
      omega
    · by_cases hq : q m
      · simp only [hp, Bool.false_eq_true, if_false, hq, if_true, List.length_cons]
        omega
      · simp only [hp, hq, Bool.false_eq_true, if_false, List.length_cons]
        omega

theorem length_filter_add_lt {α : Type} (p q : α → Bool)
    (hdisj : ∀ m, ¬(p m = true ∧ q m = true)) (data : List α) (x : α) (hx : x ∈ data)
    (hp : p x = false) (hq : q x = false) :
    (data.filter p).length + (data.filter q).length < data.length := by
  induction data with
  | nil => simp at hx
  | cons m rest ih =>
    rcases List.mem_cons.mp hx with hxm | hxrest
    · subst hxm
      simp only [List.filter_cons, hp, hq, Bool.false_eq_true, if_false, List.length_cons]
      have := length_filter_add_le p q hdisj rest
      omega
    · have hlt := ih hxrest
      simp only [List.filter_cons]
      by_cases hpm : p m
      · have hqm : ¬(q m = true) := fun hq2 => hdisj m ⟨hpm, hq2⟩
        simp only [hpm, if_true, Bool.not_eq_true] at *
        simp only [List.length_cons, hqm, Bool.false_eq_true, if_false]
        omega
      · by_cases hqm : q m
        · simp only [hpm, Bool.false_eq_true, if_false, hqm, if_true, List.length_cons]
          omega
        · simp only [hpm, hqm, Bool.false_eq_true, if_false, List.length_cons]
          omega

theorem status_disjoint :
    ∀ m : MemberData, ¬((m.Status == "Active") = true ∧ (m.Status == "Lapsed") = true) := by
  intro m ⟨h1, h2⟩
  rw [beq_iff_eq] at h1 h2
  rw [h1] at h2
  exact absurd h2 (by decide)

/-- **C9**: activeMembers + lapsedMembers ≤ totalMembers, strictly when some
record's Status (compared case-sensitively, untrimmed) is neither exactly
"Active" nor exactly "Lapsed"; such records are counted in totalMembers but
in neither activeMembers nor lapsedMembers, nor in any location's
active/lapsed counts (the breakdown's active+lapsed sum equals
activeMembers + lapsedMembers, so it stays strictly below totalMembers
too). -/
theorem claim_C9 :
    ∀ (data : List MemberData) (now : Int),
      (calculateAnalytics data now).activeMembers + (calculateAnalytics data now).lapsedMembers
        ≤ (calculateAnalytics data now).totalMembers
      ∧ locSum (fun s => s.active + s.lapsed) (calculateAnalytics data now).locationBreakdown
        = (calculateAnalytics data now).activeMembers
          + (calculateAnalytics data now).lapsedMembers
      ∧ ((∃ m ∈ data, m.Status ≠ "Active" ∧ m.Status ≠ "Lapsed") →
          (calculateAnalytics data now).activeMembers
              + (calculateAnalytics data now).lapsedMembers
            < (calculateAnalytics data now).totalMembers
          ∧ locSum (fun s => s.active + s.lapsed)
              (calculateAnalytics data now).locationBreakdown
            < (calculateAnalytics data now).totalMembers) := by
  intro data now
  rw [calc_totalMembers, calc_activeMembers, calc_lapsedMembers, calc_locationBreakdown]
  have hsum : locSum (fun s => s.active + s.lapsed) (locationBreakdownOf now data)
      = (data.filter (fun m => m.Status == "Active")).length
        + (data.filter (fun m => m.Status == "Lapsed")).length := by
    rw [locSum_add (fun s => s.active) (fun s => s.lapsed), locSum_active_eq, locSum_lapsed_eq]
  refine ⟨length_filter_add_le _ _ status_disjoint data, hsum, ?_⟩
  rintro ⟨m, hm, hne1, hne2⟩
  have hlt := length_filter_add_lt (fun m => m.Status == "Active")
    (fun m => m.Status == "Lapsed") status_disjoint data m hm
    (beq_eq_false_iff_ne.mpr hne1) (beq_eq_false_iff_ne.mpr hne2)
  exact ⟨hlt, by rw [hsum]; exact hlt⟩

theorem claim_C9_witness :
    (∃ m ∈ [mC9], m.Status ≠ "Active" ∧ m.Status ≠ "Lapsed")
    ∧ (calculateAnalytics [mC9] 0).activeMembers + (calculateAnalytics [mC9] 0).lapsedMembers
        < (calculateAnalytics [mC9] 0).totalMembers :=
  ⟨⟨mC9, by simp, by decide, by decide⟩,
    ((claim_C9 [mC9] 0).2.2 ⟨mC9, by simp, by decide, by decide⟩).1⟩

/-! ### Lemmas for the filter engine -/

theorem dateDimOK_of_empty (filters : FilterState) (m : MemberData)
    (h1 : filters.dateRangeStart = "") (h2 : filters.dateRangeEnd = "") :
    dateDimOK filters m = true := by
  unfold dateDimOK
  rw [h1, h2]
  cases parseDate m.PurchaseDate <;> simp

theorem filterByDateRange_eq_filter (data : List MemberData) (filters : FilterState) :
    filterByDateRange data filters.dateRangeStart filters.dateRangeEnd
      = data.filter (fun m => dateDimOK filters m) := by
  unfold filterByDateRange
  by_cases hboth : filters.dateRangeStart = "" ∧ filters.dateRangeEnd = ""
  · rw [if_pos hboth]
    symm
    rw [List.filter_eq_self]
    intro m _
    exact dateDimOK_of_empty filters m hboth.1 hboth.2
  · rw [if_neg hboth]
    apply List.filter_congr
    intro m _
    unfold dateDimOK
    cases parseDate m.PurchaseDate with
    | none => rfl
    | some p =>
      cases (if filters.dateRangeStart = "" then none else jsNewDate filters.dateRangeStart) <;>
        cases (if filters.dateRangeEnd = "" then none else jsNewDate filters.dateRangeEnd) <;>
          simp

theorem bool_guard (c R : Bool) : (if c = true then false else R) = (!c && R) := by
  cases c <;> simp

theorem dim_listOK (l : List String) (x : String) :
    (!(decide (l.length > 0) && !(l.contains x))) = (l.isEmpty || l.contains x) := by
  cases l with
  | nil => simp
  | cons a t => cases hc : (a :: t).contains x <;> simp [hc]

theorem dim_searchOK (q : String) (b : Bool) :
    (!((q != "") && !b)) = ((q == "") || b) := by
  cases hq : q == "" <;> cases b <;> simp [bne, hq]

theorem chain_eq_satisfies (filters : FilterState) (m : MemberData)
    (hd : dateDimOK filters m = true) :
    (if filters.status.length > 0 && !(filters.status.contains m.Status) then false
     else if filters.location.length > 0 && !(filters.location.contains m.PrimaryLocation) then
       false
     else if filters.membershipName.length > 0
         && !(filters.membershipName.contains m.MembershipName) then false
     else if filters.searchQuery != "" && !(searchMatches filters.searchQuery m) then false
     else true)
    = satisfiesCriteria filters m := by
  unfold satisfiesCriteria
  rw [hd, Bool.and_true]
  rw [bool_guard, bool_guard, bool_guard, bool_guard]
  rw [dim_listOK, dim_listOK, dim_listOK, dim_searchOK]
  simp [Bool.and_assoc]

theorem filteredData_eq_filter (data : List MemberData) (filters : FilterState) :
    filteredData data filters = data.filter (fun m => satisfiesCriteria filters m) := by
  unfold filteredData
  by_cases hOr : filters.dateRangeStart ≠ "" ∨ filters.dateRangeEnd ≠ ""
  · rw [if_pos hOr, filterByDateRange_eq_filter, List.filter_filter]
    apply List.filter_congr
    intro m _
    by_cases hd : dateDimOK filters m = true
    · rw [hd, Bool.and_true, chain_eq_satisfies filters m hd]
    · have hd' : dateDimOK filters m = false := by
        cases hdm : dateDimOK filters m
        · rfl
        · exact absurd hdm hd
      rw [hd', Bool.and_false]
      symm
      unfold satisfiesCriteria
      rw [hd']
      simp
  · rw [if_neg hOr]
    push_neg at hOr
    apply List.filter_congr
    intro m _
    exact chain_eq_satisfies filters m (dateDimOK_of_empty filters m hOr.1 hOr.2)

/-- **C4**: the filter engine returns the order-preserving subsequence of its
input containing exactly the records satisfying every non-empty criteria
dimension (conjunction across dimensions, disjunction inside a multi-select
dimension, inclusive timestamp comparison against Purchase Date with records
lacking a parseable Purchase Date passing the date dimension, and
case-insensitive substring match over name/id/location/membership for the
free-text dimension); with every dimension empty the result is the input. -/
theorem claim_C4 :
    ∀ (data : List MemberData) (filters : FilterState),
      filteredData data filters = data.filter (fun m => satisfiesCriteria filters m)
      ∧ List.Sublist (filteredData data filters) data
      ∧ filteredData data emptyCriteria = data := by
  intro data filters
  refine ⟨filteredData_eq_filter data filters, ?_, ?_⟩
  · rw [filteredData_eq_filter data filters]
    exact List.filter_sublist data
  · rw [filteredData_eq_filter data emptyCriteria]
    have hall : ∀ m : MemberData, satisfiesCriteria emptyCriteria m = true := by
      intro m
      unfold satisfiesCriteria
      rw [dateDimOK_of_empty emptyCriteria m rfl rfl]
      rfl
    rw [List.filter_eq_self]
    intro m _
    exact hall m

/-! ### Lemmas for the schema normalizer -/

theorem aget_isSome_of_mem_keys (row : RawRow) (key : String)
    (h : key ∈ row.map Prod.fst) : (aget row key).isSome = true := by
  induction row with
  | nil => simp at h
  | cons kv rest ih =>
    obtain ⟨k1, v1⟩ := kv
    by_cases hk : k1 = key
    · simp [aget, hk]
    · simp only [List.map_cons, List.mem_cons] at h
      rcases h with h | h
      · exact absurd h.symm hk
      · simp only [aget, if_neg hk]
        exact ih h

theorem some_getD_of_isSome {β : Type} (o : Option β) (d : β) (h : o.isSome = true) :
    some (o.getD d) = o := by
  cases o with
  | none => simp at h
  | some v => rfl

theorem aget_insertFold_notmem (cols : List String) (F : String → String) :
    ∀ (init : List (String × String)) (key : String), key ∉ cols →
      aget (cols.foldl (fun acc col => objSet acc col (F col)) init) key = aget init key := by
  induction cols with
  | nil => intro init key _; rfl
  | cons col rest ih =>
    intro init key hk
    simp only [List.foldl_cons]
    rw [ih (objSet init col (F col)) key (fun hm => hk (List.mem_cons_of_mem col hm))]
    exact aget_objSet_ne init col key (F col) (fun he => hk (he ▸ List.mem_cons_self col rest))

theorem aget_insertFold_mem (cols : List String) (F : String → String) (hnd : cols.Nodup) :
    ∀ (init : List (String × String)) (c : String), c ∈ cols →
      aget (cols.foldl (fun acc col => objSet acc col (F col)) init) c = some (F c) := by
  induction cols with
  | nil => intro init c hc; simp at hc
  | cons col rest ih =>
    intro init c hc
    simp only [List.foldl_cons]
    rcases List.mem_cons.mp hc with hce | hcr
    · subst hce
      have hnotin : c ∉ rest := (List.nodup_cons.mp hnd).1
      rw [aget_insertFold_notmem rest F (objSet init c (F c)) c hnotin]
      exact aget_objSet_self init c (F c)
    · exact ih (List.nodup_cons.mp hnd).2 (objSet init col (F col)) c hcr

theorem aget_passFold_preserved (keys : List String) (V : String → String) :
    ∀ (init : List (String × String)) (c : String), matchedByCanonical c = true →
      aget (keys.foldl (fun acc key =>
        if matchedByCanonical key then acc else objSet acc key (V key)) init) c
      = aget init c := by
  induction keys with
  | nil => intro init c _; rfl
  | cons k rest ih =>
    intro init c hc
    simp only [List.foldl_cons]
    rw [ih _ c hc]
    by_cases hk : matchedByCanonical k
    · rw [if_pos hk]
    · rw [if_neg hk]
      refine aget_objSet_ne init k c (V k) (fun he => hk ?_)
      rw [he] at hc
      exact hc

theorem aget_passFold_notmem (keys : List String) (V : String → String) :
    ∀ (init : List (String × String)) (key : String), key ∉ keys →
      aget (keys.foldl (fun acc k =>
        if matchedByCanonical k then acc else objSet acc k (V k)) init) key
      = aget init key := by
  induction keys with
  | nil => intro init key _; rfl
  | cons k rest ih =>
    intro init key hk
    simp only [List.foldl_cons]
    rw [ih _ key (fun hm => hk (List.mem_cons_of_mem k hm))]
    by_cases hmk : matchedByCanonical k
    · rw [if_pos hmk]
    · rw [if_neg hmk]
      exact aget_objSet_ne init k key (V k)
        (fun he => hk (he ▸ List.mem_cons_self k rest))

theorem aget_passFold_mem (keys : List String) (V : String → String) :
    ∀ (init : List (String × String)) (key : String), keys.Nodup → key ∈ keys →
      matchedByCanonical key = false →
      aget (keys.foldl (fun acc k =>
        if matchedByCanonical k then acc else objSet acc k (V k)) init) key
      = some (V key) := by
  induction keys with
  | nil => intro init key _ hk _; simp at hk
  | cons k rest ih =>
    intro init key hnd hk hm
    simp only [List.foldl_cons]
    rcases List.mem_cons.mp hk with hke | hkr
    · subst hke
      have hnotin : key ∉ rest := (List.nodup_cons.mp hnd).1
      rw [aget_passFold_notmem rest V _ key hnotin]
      rw [if_neg (by rw [hm]; exact Bool.false_ne_true)]
      exact aget_objSet_self init key (V key)
    · exact ih _ key (List.nodup_cons.mp hnd).2 hkr hm

theorem expectedColumns_nodup : expectedColumns.Nodup := by decide

theorem expectedColumns_matched :
    ∀ c ∈ expectedColumns, matchedByCanonical c = true := by
  have h : expectedColumns.all (fun c => matchedByCanonical c) = true := by decide
  intro c hc
  exact List.all_eq_true.mp h c hc

theorem normalizeRow_canonical (row : RawRow) (csvHeaders : List String) (c : String)
    (hc : c ∈ expectedColumns) :
    aget (normalizeRow row csvHeaders) c = some (canonicalBind row csvHeaders c) := by
  unfold normalizeRow
  have hstep :
      (fun (acc : RawRow) (expectedColumn : String) =>
        match findMatchingColumn csvHeaders expectedColumn with
        | some actualColumn => objSet acc expectedColumn ((aget row actualColumn).getD "")
        | none => objSet acc expectedColumn "")
      = (fun (acc : RawRow) (col : String) =>
          objSet acc col (canonicalBind row csvHeaders col)) := by
    funext acc col
    unfold canonicalBind
    cases findMatchingColumn csvHeaders col <;> rfl
  rw [hstep]
  rw [aget_passFold_preserved (row.map Prod.fst) (fun key => (aget row key).getD "") _ c
    (expectedColumns_matched c hc)]
  exact aget_insertFold_mem expectedColumns (canonicalBind row csvHeaders)
    expectedColumns_nodup [] c hc

theorem normalizeRow_passthrough (row : RawRow) (csvHeaders : List String) (key : String)
    (hnd : (row.map Prod.fst).Nodup) (hk : key ∈ row.map Prod.fst)
    (hm : matchedByCanonical key = false) :
    aget (normalizeRow row csvHeaders) key = aget row key := by
  unfold normalizeRow
  rw [aget_passFold_mem (row.map Prod.fst) (fun k => (aget row k).getD "") _ key hnd hk hm]
  exact some_getD_of_isSome (aget row key) "" (aget_isSome_of_mem_keys row key hk)

/-- **C5**: the normalization stage produces exactly one record per data row;
on every produced record every canonical field is defined, bound to the value
of the first CSV header whose trimmed lowercased text equals one of the
field's aliases (`findMatchingColumn` is exactly that `find?`), or to "" when
no header matches; header matching is case- and whitespace-insensitive (the
header " status " binds to the canonical field "Status"); and every raw key
matched by no canonical field's alias set is copied through unchanged under
its original name. -/
theorem claim_C5 :
    ∀ (rows : List RawRow) (csvHeaders : List String) (row : RawRow) (key : String),
      (normalizeAllRows rows csvHeaders).length = rows.length
      ∧ (∀ c : String, findMatchingColumn csvHeaders c
          = csvHeaders.find? (fun header =>
              (possibleNamesOf c).any
                (fun possibleName => strToLower (strTrim header) == strToLower possibleName)))
      ∧ (∀ c ∈ expectedColumns,
          aget (normalizeRow row csvHeaders) c = some (canonicalBind row csvHeaders c))
      ∧ aget (normalizeRow [(" status ", "Active")] [" status "]) "Status" = some "Active"
      ∧ ((row.map Prod.fst).Nodup → key ∈ row.map Prod.fst →
          matchedByCanonical key = false →
          aget (normalizeRow row csvHeaders) key = aget row key) := by
  intro rows csvHeaders row key
  refine ⟨List.length_map rows _, fun c => rfl, ?_, by decide, ?_⟩
  · intro c hc
    exact normalizeRow_canonical row csvHeaders c hc
  · intro hnd hk hm
    exact normalizeRow_passthrough row csvHeaders key hnd hk hm

theorem claim_C5_witness :
    ("Status" ∈ expectedColumns)
    ∧ (rowC5.map Prod.fst).Nodup
    ∧ ("Bogus" ∈ rowC5.map Prod.fst)
    ∧ matchedByCanonical "Bogus" = false
    ∧ (normalizeAllRows [rowC5] headersC5).length = 1
    ∧ aget (normalizeRow rowC5 headersC5) "Status" = some (canonicalBind rowC5 headersC5 "Status")
    ∧ aget (normalizeRow rowC5 headersC5) "Bogus" = aget rowC5 "Bogus" :=
  ⟨by decide, by decide, by decide, by decide,
   (claim_C5 [rowC5] headersC5 rowC5 "Bogus").1,
   (claim_C5 [rowC5] headersC5 rowC5 "Bogus").2.2.1 "Status" (by decide),
   (claim_C5 [rowC5] headersC5 rowC5 "Bogus").2.2.2.2 (by decide) (by decide) (by decide)⟩

end ChurnCore
